import Mathlib

/-!
Verification of the Slack summarizer event-ingestion and command-dispatch
pipeline (Python backend).  This file shallowly embeds the relevant parts of
`backend/main.py`, `backend/api/ai.py` and `backend/models/database.py` as
executable Lean definitions and proves, or refutes, the specification claims
about them.

Embedding conventions:
- Python strings are Lean `String`; Python slicing `s[:n]` is `takeChars`
  (character-based, as in Python).
- `datetime` values are modelled as `Nat` timestamps; `strftime` formatting of
  such a value inside a message text is modelled as `toString`.
- The MongoDB store is modelled as a `List Msg`; Beanie's ascending
  `.sort("timestamp")` is modelled as an insertion sort by timestamp.
- Python `set` has no iteration-order guarantee, so `list(s)[:k]` is modelled
  relationally: any duplicate-free list of `min k s.card` members of `s` is a
  possible outcome (`PyListTake`).  The two dedup handlers are therefore
  step relations, not functions.
- Side effects (Slack sends, the database write, the sync call, the summarizer
  call) are reified as an `Act` trace; an exception raised by the
  summarizer is modelled by the `Except` value in `SummaryEnv`.
-/

/-- `isPrefCL n l` decides whether the char list `n` is a leading block of
`l`.  Helper for Python's substring operator `in`. -/
def isPrefCL : List Char → List Char → Bool
  | [], _ => true
  | _ :: _, [] => false
  | a :: as, b :: bs => a == b && isPrefCL as bs

/-- `containsCL n l` decides whether `n` occurs contiguously inside `l`:
Python's `n in l` on strings, on the underlying char lists. -/
def containsCL (n : List Char) : List Char → Bool
  | [] => n.isEmpty
  | c :: cs => isPrefCL n (c :: cs) || containsCL n cs

/-- Python's substring test `needle in hay`. -/
def strContainsSub (hay needle : String) : Bool :=
  containsCL needle.data hay.data

/-- Python `str.lower()` (ASCII-faithful; every keyword the code compares
against is ASCII). -/
def lowerStr (s : String) : String :=
  String.mk (s.data.map Char.toLower)

/-- Python slicing `s[:n]` on a string (first `n` characters). -/
def takeChars (s : String) (n : Nat) : String :=
  String.mk (s.data.take n)

/-- Python `len(s)` on a string (number of characters). -/
def strLen (s : String) : Nat := s.data.length

/-- Command intents recognised by `_handle_bot_mention` in `backend/main.py`
(the spec's `Intent` enum; `unknown` is the fallback reply branch). -/
inductive Intent
  | generateEOD
  | generateEOW
  | help
  | sync
  | unknown
deriving DecidableEq

/-- The `if/elif` keyword dispatch of `_handle_bot_mention`
(`backend/main.py` lines 307-328), applied to the already-lowercased text. -/
def classifyLowered (lt : String) : Intent :=
  if strContainsSub lt "eod" || strContainsSub lt "daily" ||
      strContainsSub lt "end of day" then .generateEOD
  else if strContainsSub lt "eow" || strContainsSub lt "weekly" ||
      strContainsSub lt "end of week" then .generateEOW
  else if strContainsSub lt "help" then .help
  else if strContainsSub lt "sync" then .sync
  else .unknown

/-- Command classification as the code performs it: `_handle_bot_mention`
lowercases `event.get("text", "")` once and then runs the keyword
dispatch. -/
def classify (t : String) : Intent :=
  classifyLowered (lowerStr t)

/-- EOD keyword set (spec 4.2). -/
def eodKeywords : List String := ["eod", "daily", "end of day"]

/-- EOW keyword set (spec 4.2). -/
def eowKeywords : List String := ["eow", "weekly", "end of week"]

/-- Help keyword set (spec 4.2). -/
def helpKeywords : List String := ["help"]

/-- Sync keyword set (spec 4.2). -/
def syncKeywords : List String := ["sync"]

/-- The spec's ordered keyword table: EOD-keywords, then EOW-keywords, then
Help-keywords, then Sync-keywords. -/
def specKeywordTable : List (Intent × List String) :=
  [(.generateEOD, eodKeywords), (.generateEOW, eowKeywords),
   (.help, helpKeywords), (.sync, syncKeywords)]

/-- Spec-side classifier, written from the spec's words (4.2): first entry of
the precedence-ordered table one of whose keywords occurs case-insensitively
as a substring wins; `unknown` is the fallback.  Refinement target for
`classify`. -/
def specClassify (t : String) : Intent :=
  let lt := lowerStr t
  match specKeywordTable.find? (fun p => p.2.any (fun kw => strContainsSub lt kw)) with
  | some p => p.1
  | none => .unknown

/-- Canonical stored message record: the `message_data` dict built by
`_store_slack_message` / the `SlackMessage` Beanie document
(`backend/models/database.py` lines 12-23).  The opaque `reactions` and
`files` lists are omitted; `datetime` is a `Nat` timestamp. -/
structure Msg where
  id : String
  channelId : String
  channelName : String
  userId : String
  username : String
  text : String
  timestamp : Nat
  threadTs : Option String
deriving DecidableEq

/-- Insert one message into a timestamp-ascending list, keeping it sorted. -/
def insertByTs (m : Msg) : List Msg → List Msg
  | [] => [m]
  | x :: xs => if x.timestamp ≤ m.timestamp then x :: insertByTs m xs else m :: x :: xs

/-- Ascending sort by `timestamp`: the model of Beanie's
`query.sort("timestamp")` in `get_messages_by_date_range`. -/
def sortByTs (l : List Msg) : List Msg := l.foldr insertByTs []

/-- `Database.get_messages_by_date_range` (`backend/models/database.py`
lines 141-176): filter the store to `start_date ≤ timestamp ≤ end_date`,
optionally filter by a channel list (Python truthiness: an empty channel list
is falsy and applies no filter), and return ascending by timestamp. -/
def getMessagesByDateRange (db : List Msg) (startDate endDate : Nat)
    (channels : Option (List String)) : List Msg :=
  let q := db.filter (fun m => startDate ≤ m.timestamp && m.timestamp ≤ endDate)
  let q := match channels with
    | some cs => if cs.isEmpty then q else q.filter (fun m => cs.contains m.channelId)
    | none => q
  sortByTs q

/-- Does the store already hold a message with this id?  Models
`SlackMessage.find_one(SlackMessage.id == message_data["id"])`. -/
def hasMsgId (db : List Msg) (i : String) : Bool :=
  db.any (fun m => m.id == i)

/-- `Database.store_slack_message` (`backend/models/database.py` lines
125-139): if a message with the same id exists, skip and return `True`;
otherwise insert and return `True`.  (The code returns `False` only when the
database raises, which the pure model has no analogue of.) -/
def storeSlackMessage (db : List Msg) (m : Msg) : List Msg × Bool :=
  if hasMsgId db m.id then (db, true)
  else (db ++ [m], true)

/-- Modelled from the spec: the `upsert_message(msg) -> inserted:bool`
contract of the abstract `Store` capability (spec 6), under which the
returned flag reports whether the call actually inserted.  Comparison target
for the code's `storeSlackMessage` return value. -/
def specUpsertInserted (db : List Msg) (m : Msg) : Bool :=
  !(hasMsgId db m.id)

/-- The messages included in the summarizer prompt:
`for i, message in enumerate(messages[:40])` in `_build_summary_prompt`
(`backend/api/ai.py` line 190). -/
def promptIncludedMessages (msgs : List Msg) : List Msg :=
  msgs.take 40

/-- The count reported by the `"... and N more messages"` truncation marker:
emitted only when `len(messages) > 40`, with `N = len(messages) - 40`
(`backend/api/ai.py` lines 204-205). -/
def promptTruncationCount (msgs : List Msg) : Option Nat :=
  if 40 < msgs.length then some (msgs.length - 40) else none

/-- Character class `[A-Z0-9]` of the mention regexes. -/
def isUpperAlnum (c : Char) : Bool :=
  ('A' ≤ c && c ≤ 'Z') || ('0' ≤ c && c ≤ '9')

/-- Character class `[a-zA-Z0-9_+-]` of the emoji-shortcode regex. -/
def isEmojiChar (c : Char) : Bool :=
  ('a' ≤ c && c ≤ 'z') || ('A' ≤ c && c ≤ 'Z') || ('0' ≤ c && c ≤ '9') ||
    c == '_' || c == '+' || c == '-'

/-- Whitespace recognised by Python `str.split()` (the six ASCII whitespace
characters; the inputs at hand contain no exotic Unicode spaces). -/
def isPySpace (c : Char) : Bool :=
  c == ' ' || c == '\t' || c == '\n' || c == '\x0b' || c == '\x0c' || c == '\r'

/-- Leftmost match of `<@U[A-Z0-9]+>` at the head of the list: returns the
matched length and the replacement `"@user"`.  The class excludes `>`, so the
greedy `+` is an exact maximal run. -/
def matchUserMention : List Char → Option (Nat × List Char)
  | '<' :: '@' :: 'U' :: rest =>
    let run := rest.takeWhile isUpperAlnum
    if run.isEmpty then none
    else match rest.dropWhile isUpperAlnum with
      | '>' :: _ => some (4 + run.length, "@user".data)
      | _ => none
  | _ => none

/-- Match of `<#C[A-Z0-9]+\|([^>]+)>` at the head, replaced by `#` plus the
captured label (`re.sub(..., r'#\1', ...)`). -/
def matchChannelMention : List Char → Option (Nat × List Char)
  | '<' :: '#' :: 'C' :: rest =>
    let run := rest.takeWhile isUpperAlnum
    if run.isEmpty then none
    else match rest.dropWhile isUpperAlnum with
      | '|' :: rest2 =>
        let label := rest2.takeWhile (fun c => c != '>')
        if label.isEmpty then none
        else match rest2.dropWhile (fun c => c != '>') with
          | '>' :: _ => some (3 + run.length + 1 + label.length + 1, '#' :: label)
          | _ => none
      | _ => none
  | _ => none

/-- Consume an optional `s` after `http`, returning its length and the rest. -/
def optS : List Char → Nat × List Char
  | 's' :: r => (1, r)
  | r => (0, r)

/-- Match of `<http[s]?://[^|>]+\|([^>]+)>` at the head, replaced by the
captured label. -/
def matchLabeledLink : List Char → Option (Nat × List Char)
  | '<' :: 'h' :: 't' :: 't' :: 'p' :: rest =>
    let (sLen, rest1) := optS rest
    match rest1 with
    | ':' :: '/' :: '/' :: rest2 =>
      let url := rest2.takeWhile (fun c => c != '|' && c != '>')
      if url.isEmpty then none
      else match rest2.dropWhile (fun c => c != '|' && c != '>') with
        | '|' :: rest3 =>
          let label := rest3.takeWhile (fun c => c != '>')
          if label.isEmpty then none
          else match rest3.dropWhile (fun c => c != '>') with
            | '>' :: _ =>
              some (5 + sLen + 3 + url.length + 1 + label.length + 1, label)
            | _ => none
        | _ => none
    | _ => none
  | _ => none

/-- Match of `<http[s]?://[^>]+>` at the head, replaced by `"[link]"`. -/
def matchBareLink : List Char → Option (Nat × List Char)
  | '<' :: 'h' :: 't' :: 't' :: 'p' :: rest =>
    let (sLen, rest1) := optS rest
    match rest1 with
    | ':' :: '/' :: '/' :: rest2 =>
      let url := rest2.takeWhile (fun c => c != '>')
      if url.isEmpty then none
      else match rest2.dropWhile (fun c => c != '>') with
        | '>' :: _ => some (5 + sLen + 3 + url.length + 1, "[link]".data)
        | _ => none
    | _ => none
  | _ => none

/-- Match of `:[a-zA-Z0-9_+-]+:` at the head, deleted
(`re.sub(..., '', ...)`). -/
def matchEmojiCode : List Char → Option (Nat × List Char)
  | ':' :: rest =>
    let run := rest.takeWhile isEmojiChar
    if run.isEmpty then none
    else match rest.dropWhile isEmojiChar with
      | ':' :: _ => some (1 + run.length + 1, [])
      | _ => none
  | _ => none

/-- Generic `re.sub` driver: scan left to right; on a match consume it,
emit the replacement and continue after it (non-overlapping); otherwise
advance one character.  `fuel` is the input length; every step consumes at
least one character, so the fuel never runs out when initialised that way
(all the patterns above match at least one character). -/
def subAllAux (m : List Char → Option (Nat × List Char)) :
    Nat → List Char → List Char
  | _, [] => []
  | 0, l => l
  | fuel + 1, c :: cs =>
    match m (c :: cs) with
    | some (n, repl) =>
      if n = 0 then c :: subAllAux m fuel cs
      else repl ++ subAllAux m fuel (cs.drop (n - 1))
    | none => c :: subAllAux m fuel cs

/-- `re.sub(pattern, repl, text)` for the matchers above. -/
def subAll (m : List Char → Option (Nat × List Char)) (l : List Char) : List Char :=
  subAllAux m l.length l

/-- Single-pass form of `' '.join(text.split())`: drop leading/trailing
whitespace and replace every interior whitespace run with one space.
State `st`: 0 = nothing emitted yet, 1 = inside a word, 2 = in whitespace
after a word (a separating space is pending). -/
def collapseAux : Nat → List Char → List Char
  | _, [] => []
  | st, c :: cs =>
    if isPySpace c then collapseAux (if st == 0 then 0 else 2) cs
    else (if st == 2 then [' ', c] else [c]) ++ collapseAux 1 cs

/-- `' '.join(text.split())` on a char list. -/
def collapsePy (l : List Char) : List Char := collapseAux 0 l

/-- Python `str.strip()` on a char list. -/
def stripPy (l : List Char) : List Char :=
  ((l.dropWhile isPySpace).reverse.dropWhile isPySpace).reverse

/-- `CloudflareAIService._clean_message_text` (`backend/api/ai.py` lines
214-234): the six-stage cleaning pipeline, applied in the source order. -/
def cleanMessageText (t : String) : String :=
  let l1 := subAll matchUserMention t.data
  let l2 := subAll matchChannelMention l1
  let l3 := subAll matchLabeledLink l2
  let l4 := subAll matchBareLink l3
  let l5 := subAll matchEmojiCode l4
  String.mk (stripPy (collapsePy l5))

/-- Reified side effects and calls of the pipeline: Slack sends, the message
sync, the store query, the database write, the summarizer call, the two dedup
recordings, and the nested mention-handling call. -/
inductive Act
  | send (channel text : String)
  | syncCall
  | storeQuery (startDate endDate : Nat)
  | summarizeCall (summaryType : String) (messageCount : Nat)
  | recordEvent (key : String)
  | recordCommand (key : String)
  | storeMessage (eventTs : String)
  | mentionFlow
  | runSummaryFlow (summaryType channel : String)
deriving DecidableEq

/-- Stages of the spec's Summary Orchestrator state machine (spec 4.5). -/
inductive Stage
  | notified
  | synced
  | fetched
  | summarized
  | rendered
  | persisted
deriving DecidableEq

/-- Terminal outcome of one `_generate_and_send_summary` run: a normal return
is `delivered`; reaching the `except` block is `failed` with the stage whose
call raised and the error text. -/
inductive RunResult
  | delivered
  | failed (stage : Stage) (err : String)
deriving DecidableEq

/-- External inputs of one `_generate_and_send_summary` run: the message
store, the computed time window, and the outcome of the
`ai_service.generate_summary` call (`Except.error e` models the call
raising `e`). -/
structure SummaryEnv where
  db : List Msg
  startT : Nat
  endT : Nat
  aiResult : Except String String

/-- The in-progress notice (`backend/main.py` line 342). -/
def progressText (summaryType : String) : String :=
  "🔄 Generating " ++ summaryType ++ " summary... This may take a moment."

/-- The zero-messages notice (`backend/main.py` line 371; static tail
abbreviated, `strftime` rendering of the window modelled as `toString`). -/
def noMessagesText (summaryType : String) (startT endT : Nat) : String :=
  "📊 **" ++ summaryType ++ " Summary**\n\n❌ No messages found for the specified time period (" ++
    toString startT ++ " to " ++ toString endT ++ "). Try syncing messages first."

/-- The message-count debug notice (`backend/main.py` line 378). -/
def processingText (n : Nat) (startT : Nat) : String :=
  "📈 Processing " ++ toString n ++ " messages from " ++ toString startT ++ "..."

/-- The failure notice of the `except` block (`backend/main.py` line 405). -/
def failureText (err : String) : String :=
  "❌ Failed to generate summary. Error: " ++ err

/-- Header of the delivered reply (`backend/main.py` line 392). -/
def summaryHeader (summaryType : String) : String :=
  "📊 **" ++ summaryType ++ " Summary Generated**\n\n"

/-- Footer of the delivered reply, carrying the processed message count
(`backend/main.py` line 392). -/
def summaryFooter (n : Nat) : String :=
  "\n\n📈 *Processed " ++ toString n ++ " messages*"

/-- The delivered reply text (`backend/main.py` line 392):
`f"📊 **{summary_type} Summary Generated**\n\n{ai_summary[:1500]}{'...' if len(ai_summary) > 1500 else ''}\n\n📈 *Processed {len(messages)} messages*"`. -/
def deliveredReply (summaryType aiSummary : String) (n : Nat) : String :=
  summaryHeader summaryType ++ takeChars aiSummary 1500 ++
    (if 1500 < strLen aiSummary then "..." else "") ++ summaryFooter n

/-- `_generate_and_send_summary` (`backend/main.py` lines 337-406) as a trace
of actions plus a terminal result: send the progress notice, sync, query the
store over the window; on zero messages send the no-messages notice and
return normally; otherwise send the count notice, call the summarizer, and
either send the formatted summary (normal return) or, when the summarizer
raises, fall to the `except` block which sends exactly one failure notice. -/
def generateAndSendSummary (summaryType channel : String) (env : SummaryEnv) :
    List Act × RunResult :=
  let fetched := getMessagesByDateRange env.db env.startT env.endT none
  let pre : List Act :=
    [.send channel (progressText summaryType), .syncCall,
     .storeQuery env.startT env.endT]
  if fetched.length = 0 then
    (pre ++ [.send channel (noMessagesText summaryType env.startT env.endT)],
     .delivered)
  else
    let pre2 := pre ++
      [.send channel (processingText fetched.length env.startT),
       .summarizeCall summaryType fetched.length]
    match env.aiResult with
    | .error e => (pre2 ++ [.send channel (failureText e)], .failed .summarized e)
    | .ok s =>
      (pre2 ++ [.send channel (deliveredReply summaryType s fetched.length)],
       .delivered)

/-- Possible outcomes of Python's `list(s)[:k]` for a `set` `s`: the language
gives no iteration-order guarantee, so any duplicate-free list of
`min k |s|` members of `s` (a length-`k` slice of some enumeration of `s`)
may be produced. -/
def PyListTake (s : Finset String) (k : Nat) (l : List String) : Prop :=
  l.Nodup ∧ (∀ x ∈ l, x ∈ s) ∧ l.length = min k s.card

/-- The eviction loop `for old in list(s)[:k]: s.remove(old)`. -/
def evictFold (s : Finset String) (l : List String) : Finset String :=
  l.foldl Finset.erase s

/-- The dedup bookkeeping of both handlers (`backend/main.py` lines 216-221
and 298-303): add the key; if the set then exceeds `bound` entries, remove
`evictCount` entries taken from `list(set)` (unspecified iteration order). -/
def DedupInsert (bound evictCount : Nat) (s : Finset String) (key : String)
    (after : Finset String) : Prop :=
  let s1 := insert key s
  if bound < s1.card then
    ∃ l, PyListTake s1 evictCount l ∧ after = evictFold s1 l
  else after = s1

/-- One inbound Slack event, as read off the event dict by
`_handle_slack_event` (each `event.get(...)` modelled as a string field). -/
structure SlackEvent where
  etype : String
  ts : String
  eventTs : String
  user : String
  channel : String
  text : String
deriving DecidableEq

/-- The event dedup key
`f"{type}_{ts}_{event_ts}_{user}_{channel}"` (`backend/main.py` line 208). -/
def eventKey (ev : SlackEvent) : String :=
  ev.etype ++ "_" ++ ev.ts ++ "_" ++ ev.eventTs ++ "_" ++ ev.user ++ "_" ++ ev.channel

/-- The command dedup key `f"{user}_{channel}_{timestamp}_{text[:50]}"`
(`backend/main.py` lines 287-290): `timestamp` is `ts or event_ts` (Python
falsiness of the empty string), `text` was already lowercased. -/
def commandKey (ev : SlackEvent) : String :=
  ev.user ++ "_" ++ ev.channel ++ "_" ++
    (if ev.ts = "" then ev.eventTs else ev.ts) ++ "_" ++
    takeChars (lowerStr ev.text) 50

/-- Static help text of `_send_help_message` (abbreviated). -/
def helpText : String := "🤖 **AI Slack Summarizer Help**"

/-- Fallback reply of the unknown-command branch (abbreviated). -/
def unknownText : String := "🤖 Hi! I can generate EOD/EOW summaries."

/-- Sync-start notice of the sync branch (`backend/main.py` line 317). -/
def syncStartText : String :=
  "🔄 Syncing recent messages... This may take a moment."

/-- Sync-result notice of the sync branch (`backend/main.py` line 322). -/
def syncDoneText (totalMessages channelsProcessed : Nat) : String :=
  "✅ Synced " ++ toString totalMessages ++ " messages from " ++
    toString channelsProcessed ++ " channels"

/-- Side effects of the command-dispatch `if/elif` chain of
`_handle_bot_mention` (`backend/main.py` lines 307-328); the two summary
branches invoke `_generate_and_send_summary`, reified as `runSummaryFlow`. -/
def mentionEffects (channel : String) (intent : Intent)
    (syncMsgs syncChans : Nat) : List Act :=
  match intent with
  | .generateEOD => [.runSummaryFlow "EOD" channel]
  | .generateEOW => [.runSummaryFlow "EOW" channel]
  | .help => [.send channel helpText]
  | .sync => [.send channel syncStartText, .syncCall,
              .send channel (syncDoneText syncMsgs syncChans)]
  | .unknown => [.send channel unknownText]

/-- `_handle_bot_mention` (`backend/main.py` lines 281-328) as a step
relation (relational because of the set-iteration nondeterminism in the
eviction): a seen command key is dropped with no side effects; a fresh key is
recorded (and the 500-entry set possibly evicted by 50) before the dispatch
side effects run.  `syncMsgs`/`syncChans` are the counts an executed sync
branch would report. -/
def HandleBotMention (st : Finset String) (ev : SlackEvent)
    (syncMsgs syncChans : Nat) (after : Finset String) (tr : List Act) : Prop :=
  let key := commandKey ev
  if key ∈ st then after = st ∧ tr = []
  else DedupInsert 500 50 st key after ∧
    tr = .recordCommand key ::
      mentionEffects ev.channel (classify ev.text) syncMsgs syncChans

/-- `_handle_slack_event` (`backend/main.py` lines 203-239) as a step
relation: a seen event key is dropped with no side effects; a fresh key is
recorded (and the 1000-entry set possibly evicted by 100) before any side
effect runs.  A `"message"` event stores the message and, when the bot
mention string occurs in the text, enters the mention flow; an
`"app_mention"` event enters the mention flow directly (the nested
`_handle_bot_mention` call is reified as `mentionFlow`). -/
def HandleSlackEvent (botId : Option String) (st : Finset String)
    (ev : SlackEvent) (after : Finset String) (tr : List Act) : Prop :=
  let key := eventKey ev
  if key ∈ st then after = st ∧ tr = []
  else DedupInsert 1000 100 st key after ∧
    tr = .recordEvent key ::
      (if ev.etype = "message" then
        .storeMessage ev.eventTs ::
          (match botId with
           | some b =>
             if strContainsSub ev.text ("<@" ++ b ++ ">") then [.mentionFlow] else []
           | none => [])
      else if ev.etype = "app_mention" then [.mentionFlow]
      else [])

/-- Concrete stored message with timestamp `n` (fixture). -/
def mkMsg (n : Nat) : Msg :=
  ⟨toString n, "C1", "general", "U1", "alice", "hi", n, none⟩

/-- Fixture store of 41 messages with timestamps `0..40`. -/
def c1db : List Msg := (List.range 41).map mkMsg

/-- Concrete dedup key fixture: `n` repetitions of `a` (injective in `n`). -/
def mkKey (n : Nat) : String := String.mk (List.replicate n 'a')

/-- Fixture insertion history of 1001 distinct dedup keys, oldest first. -/
def c2hist : List String := (List.range 1001).map mkKey

/-- Fixture eviction batch: 100 members of `c2hist` that skip the oldest
entry — a legal `list(set)[:100]` outcome that is not the oldest 100. -/
def c2batch : List String := (c2hist.drop 1).take 100

/-- Fixture message for the upsert-idempotence claim. -/
def c5msg : Msg := ⟨"1700000000.000100", "C1", "general", "U1", "alice", "hi", 5, none⟩

/-- Fixture environment with an empty store. -/
def c4env : SummaryEnv := ⟨[], 0, 0, .ok ""⟩

/-- Fixture environment whose summarizer call raises `"boom"`. -/
def c6env : SummaryEnv := ⟨[mkMsg 5], 0, 10, .error "boom"⟩

/-- Fixture environment whose summarizer call returns `"hi"`. -/
def c7env : SummaryEnv := ⟨[mkMsg 5], 0, 10, .ok "hi"⟩

/-- Fixture inbound event of a type with no side effects. -/
def c10ev : SlackEvent := ⟨"reaction_added", "1.0", "1.0", "U1", "C1", "hello"⟩

/-- Fixture bot-mention event asking for help. -/
def c10mention : SlackEvent := ⟨"app_mention", "2.0", "2.0", "U2", "C2", "please help"⟩

/-- Recogniser for summarizer invocations in a trace. -/
def isSummarizeCall : Act → Bool
  | .summarizeCall _ _ => true
  | _ => false

theorem strData_append (a b : String) : (a ++ b).data = a.data ++ b.data := by
  cases a; cases b; rfl

theorem containsCL_nil (l : List Char) : containsCL [] l = true := by
  cases l <;> simp [containsCL, isPrefCL, List.isEmpty]

theorem isPrefCL_self (l : List Char) : isPrefCL l l = true := by
  induction l with
  | nil => rfl
  | cons a as ih => simp [isPrefCL, ih]

theorem isPrefCL_extend (n l t : List Char) (h : isPrefCL n l = true) :
    isPrefCL n (l ++ t) = true := by
  induction n generalizing l with
  | nil => rfl
  | cons a as ih =>
    cases l with
    | nil => simp [isPrefCL] at h
    | cons b bs =>
      simp only [isPrefCL, Bool.and_eq_true] at h
      simp only [List.cons_append, isPrefCL, Bool.and_eq_true]
      exact ⟨h.1, ih bs h.2⟩

theorem containsCL_append_left (n l t : List Char) (h : containsCL n l = true) :
    containsCL n (l ++ t) = true := by
  induction l with
  | nil =>
    simp only [containsCL, List.isEmpty_iff] at h
    subst h
    exact containsCL_nil t
  | cons c cs ih =>
    simp only [containsCL, Bool.or_eq_true] at h
    simp only [List.cons_append, containsCL, Bool.or_eq_true]
    rcases h with h | h
    · exact Or.inl (by simpa using isPrefCL_extend n (c :: cs) t h)
    · exact Or.inr (ih h)

theorem containsCL_append_right (n p l : List Char) (h : containsCL n l = true) :
    containsCL n (p ++ l) = true := by
  induction p with
  | nil => exact h
  | cons c cs ih =>
    simp only [List.cons_append, containsCL, Bool.or_eq_true]
    exact Or.inr ih

theorem containsCL_self (n : List Char) : containsCL n n = true := by
  cases n with
  | nil => rfl
  | cons c cs =>
    simp only [containsCL, Bool.or_eq_true]
    exact Or.inl (isPrefCL_self _)

theorem strContains_append_right (a b n : String) (h : strContainsSub b n = true) :
    strContainsSub (a ++ b) n = true := by
  simp only [strContainsSub, strData_append]
  exact containsCL_append_right _ _ _ h

theorem strContains_append_left (a b n : String) (h : strContainsSub a n = true) :
    strContainsSub (a ++ b) n = true := by
  simp only [strContainsSub, strData_append]
  exact containsCL_append_left _ _ _ h

theorem strContains_mid (a b c : String) : strContainsSub (a ++ b ++ c) b = true := by
  simp only [strContainsSub, strData_append, List.append_assoc]
  exact containsCL_append_right _ _ _ (containsCL_append_left _ _ _ (containsCL_self _))

theorem str_append_empty (a : String) : a ++ "" = a := by
  cases a with
  | mk l =>
    show String.mk (l ++ []) = String.mk l
    rw [List.append_nil]

theorem takeChars_of_le (s : String) (n : Nat) (h : strLen s ≤ n) :
    takeChars s n = s := by
  cases s with
  | mk l =>
    exact congrArg String.mk (List.take_of_length_le h)

theorem strLen_takeChars (s : String) (n : Nat) : strLen (takeChars s n) ≤ n := by
  simp only [takeChars, strLen, List.length_take]
  omega

theorem evictFold_card (l : List String) (s : Finset String) (hnd : l.Nodup)
    (hmem : ∀ x ∈ l, x ∈ s) : (evictFold s l).card = s.card - l.length := by
  induction l generalizing s with
  | nil => simp [evictFold]
  | cons a as ih =>
    have ha : a ∈ s := hmem a (by simp)
    have hnd' := List.nodup_cons.mp hnd
    have hmem' : ∀ x ∈ as, x ∈ s.erase a := by
      intro x hx
      exact Finset.mem_erase.mpr ⟨fun e => hnd'.1 (e ▸ hx), hmem x (by simp [hx])⟩
    have hrec := ih (s.erase a) hnd'.2 hmem'
    have hcard : (s.erase a).card = s.card - 1 := Finset.card_erase_of_mem ha
    have hpos : 1 ≤ s.card := Finset.card_pos.mpr ⟨a, ha⟩
    show ((a :: as).foldl Finset.erase s).card = s.card - (a :: as).length
    rw [List.foldl_cons]
    have : (as.foldl Finset.erase (s.erase a)).card = (s.erase a).card - as.length := hrec
    simp only [List.length_cons]
    omega

theorem dedupInsert_card (bound cnt : Nat) (s after : Finset String) (key : String)
    (h1 : 1 ≤ cnt) (h2 : cnt ≤ bound + 1) (hd : DedupInsert bound cnt s key after)
    (hle : s.card ≤ bound) :
    (insert key s).card ≤ s.card + 1 ∧ after.card ≤ bound ∧
      (bound < (insert key s).card → after.card + cnt = (insert key s).card) := by
  have hins : (insert key s).card ≤ s.card + 1 := Finset.card_insert_le key s
  unfold DedupInsert at hd
  by_cases hb : bound < (insert key s).card
  · rw [if_pos hb] at hd
    obtain ⟨l, ⟨hnd, hmem, hlen⟩, rfl⟩ := hd
    have hcard1 : (insert key s).card = bound + 1 := by omega
    have hfold := evictFold_card l (insert key s) hnd hmem
    refine ⟨hins, ?_, fun _ => ?_⟩ <;> omega
  · rw [if_neg hb] at hd
    subst hd
    exact ⟨hins, by omega, fun hc => absurd hc hb⟩

theorem mem_insertByTs (y m : Msg) (l : List Msg) :
    y ∈ insertByTs m l → y = m ∨ y ∈ l := by
  induction l with
  | nil => simp [insertByTs]
  | cons x xs ih =>
    simp only [insertByTs]
    split
    · intro h
      rcases List.mem_cons.mp h with h | h
      · exact Or.inr (by simp [h])
      · rcases ih h with h | h
        · exact Or.inl h
        · exact Or.inr (by simp [h])
    · intro h
      rcases List.mem_cons.mp h with h | h
      · exact Or.inl h
      · exact Or.inr h

theorem pairwise_insertByTs (m : Msg) (l : List Msg)
    (h : l.Pairwise (fun a b => a.timestamp ≤ b.timestamp)) :
    (insertByTs m l).Pairwise (fun a b => a.timestamp ≤ b.timestamp) := by
  induction l with
  | nil => simp [insertByTs]
  | cons x xs ih =>
    rcases List.pairwise_cons.mp h with ⟨hx, hxs⟩
    simp only [insertByTs]
    split
    next hle =>
      refine List.pairwise_cons.mpr ⟨?_, ih hxs⟩
      intro y hy
      rcases mem_insertByTs y m xs hy with rfl | hy'
      · exact hle
      · exact hx y hy'
    next hgt =>
      refine List.pairwise_cons.mpr ⟨?_, h⟩
      intro y hy
      rcases List.mem_cons.mp hy with rfl | hy'
      · omega
      · have := hx y hy'
        omega

theorem sortByTs_pairwise (l : List Msg) :
    (sortByTs l).Pairwise (fun a b => a.timestamp ≤ b.timestamp) := by
  induction l with
  | nil => simp [sortByTs]
  | cons x xs ih => exact pairwise_insertByTs x _ ih

theorem getMessages_pairwise (db : List Msg) (s e : Nat) (ch : Option (List String)) :
    (getMessagesByDateRange db s e ch).Pairwise
      (fun a b => a.timestamp ≤ b.timestamp) := by
  unfold getMessagesByDateRange
  cases ch with
  | none => exact sortByTs_pairwise _
  | some cs =>
    by_cases hcs : cs.isEmpty <;> simp [hcs] <;> exact sortByTs_pairwise _

theorem progress_ne_failure (st e : String) : progressText st ≠ failureText e := by
  intro h
  have h2 := congrArg String.data h
  simp only [progressText, failureText, strData_append] at h2
  simp only [List.cons_append] at h2
  exact absurd (List.cons.inj h2).1 (by decide)

theorem processing_ne_failure (n s : Nat) (e : String) :
    processingText n s ≠ failureText e := by
  intro h
  have h2 := congrArg String.data h
  simp only [processingText, failureText, strData_append] at h2
  simp only [List.cons_append] at h2
  exact absurd (List.cons.inj h2).1 (by decide)

theorem mkKey_inj : Function.Injective mkKey := by
  intro a b h
  have := congrArg (fun s => s.data.length) h
  simpa [mkKey] using this

/-- C3: command classification matches the bot-mention text case-insensitively
by substring against the fixed keyword sets, in the precedence order
EOD-keywords, EOW-keywords, Help-keywords, Sync-keywords, Unknown fallback,
first match winning (`classify` agrees with the spec's table classifier
everywhere); any text containing an EOD keyword classifies as GenerateEOD,
in particular "please run eod and help me". -/
theorem c3_classifier_precedence :
    (∀ t, classify t = specClassify t) ∧
    (∀ t, (strContainsSub (lowerStr t) "eod" = true ∨
           strContainsSub (lowerStr t) "daily" = true ∨
           strContainsSub (lowerStr t) "end of day" = true) →
        classify t = .generateEOD) ∧
    classify "please run eod and help me" = .generateEOD := by
  refine ⟨?_, ?_, by decide⟩
  · intro t
    simp only [classify, specClassify, classifyLowered, specKeywordTable,
      eodKeywords, eowKeywords, helpKeywords, syncKeywords]
    cases h1 : strContainsSub (lowerStr t) "eod" <;>
    cases h2 : strContainsSub (lowerStr t) "daily" <;>
    cases h3 : strContainsSub (lowerStr t) "end of day" <;>
    cases h4 : strContainsSub (lowerStr t) "eow" <;>
    cases h5 : strContainsSub (lowerStr t) "weekly" <;>
    cases h6 : strContainsSub (lowerStr t) "end of week" <;>
    cases h7 : strContainsSub (lowerStr t) "help" <;>
    cases h8 : strContainsSub (lowerStr t) "sync" <;>
    simp [List.find?, h1, h2, h3, h4, h5, h6, h7, h8]
  · intro t h
    rcases h with h | h | h <;> simp [classify, classifyLowered, h]

/-- Witness instantiating C3 at a concrete input. -/
theorem c3_witness : classify "run the eod update" = .generateEOD :=
  c3_classifier_precedence.2.1 "run the eod update" (Or.inl (by decide))

/-- C8: the text-cleaning pipeline applies, in order, user-mention
replacement, channel-mention replacement, labeled-link replacement, bare-link
replacement, emoji-shortcode stripping and whitespace collapsing; cleaning
"<@U123> check <#C1|general> at <http://x|link>" yields
"@user check #general at link", which contains the user-mention placeholder,
"#general" and "link", with no markup characters remaining. -/
theorem c8_clean_pipeline :
    (∀ t, cleanMessageText t =
      String.mk (stripPy (collapsePy (subAll matchEmojiCode (subAll matchBareLink
        (subAll matchLabeledLink (subAll matchChannelMention
          (subAll matchUserMention t.data)))))))) ∧
    cleanMessageText "<@U123> check <#C1|general> at <http://x|link>"
      = "@user check #general at link" ∧
    strContainsSub (cleanMessageText "<@U123> check <#C1|general> at <http://x|link>")
      "@user" = true ∧
    strContainsSub (cleanMessageText "<@U123> check <#C1|general> at <http://x|link>")
      "#general" = true ∧
    strContainsSub (cleanMessageText "<@U123> check <#C1|general> at <http://x|link>")
      "link" = true ∧
    (cleanMessageText "<@U123> check <#C1|general> at <http://x|link>").data.all
      (fun c => !(c == '<' || c == '>' || c == '|')) = true :=
  ⟨fun _ => rfl, by decide, by decide, by decide, by decide, by decide⟩

/-- C9: every date-range query of the message store returns its messages in
non-decreasing timestamp order (oldest first). -/
theorem c9_query_sorted (db : List Msg) (s e : Nat) (ch : Option (List String)) :
    (getMessagesByDateRange db s e ch).Pairwise
      (fun a b => a.timestamp ≤ b.timestamp) :=
  getMessages_pairwise db s e ch

/-- C4: a summary run whose store query over the computed window returns zero
messages terminates in the Delivered state, sends a "No messages found"
notice to the originating channel, and never invokes the summarizer — a
normal terminal outcome, not an error. -/
theorem c4_no_messages_short_circuit (summaryType channel : String)
    (env : SummaryEnv)
    (h : getMessagesByDateRange env.db env.startT env.endT none = []) :
    (generateAndSendSummary summaryType channel env).2 = .delivered ∧
    Act.send channel (noMessagesText summaryType env.startT env.endT)
      ∈ (generateAndSendSummary summaryType channel env).1 ∧
    (∀ st n, Act.summarizeCall st n ∉ (generateAndSendSummary summaryType channel env).1) ∧
    strContainsSub (noMessagesText summaryType env.startT env.endT)
      "No messages found" = true := by
  have hlen : (getMessagesByDateRange env.db env.startT env.endT none).length = 0 := by
    rw [h]; rfl
  refine ⟨?_, ?_, ?_, ?_⟩
  · simp [generateAndSendSummary, hlen]
  · simp [generateAndSendSummary, hlen]
  · intro st n
    simp [generateAndSendSummary, hlen]
  · have hbig : strContainsSub
        " Summary**\n\n❌ No messages found for the specified time period ("
        "No messages found" = true := by decide
    simp only [noMessagesText]
    exact strContains_append_left _ _ _ (strContains_append_left _ _ _
      (strContains_append_left _ _ _ (strContains_append_left _ _ _
        (strContains_append_right _ _ _ hbig))))

/-- Witness instantiating C4 at a concrete empty-store run. -/
theorem c4_witness :
    (generateAndSendSummary "EOD" "C1" c4env).2 = .delivered ∧
    (∀ st n, Act.summarizeCall st n ∉ (generateAndSendSummary "EOD" "C1" c4env).1) := by
  have h := c4_no_messages_short_circuit "EOD" "C1" c4env (by decide)
  exact ⟨h.1, h.2.2.1⟩

/-- C6 counterexample: at a concrete run whose summarizer call raises
`"boom"`, the single failure notice actually sent is the fixed
`"❌ Failed to generate summary. Error: boom"` string of the `except` block —
the same wording regardless of which call raised — which cites the error
text but names neither the stage `Summarized` (in either capitalisation) nor
the word "stage".  The claim's requirement that the notice cite the stage is
therefore false at this input. -/
theorem c6_counterexample :
    (generateAndSendSummary "EOD" "C1" c6env).2
        = RunResult.failed Stage.summarized "boom" ∧
    Act.send "C1" (failureText "boom")
      ∈ (generateAndSendSummary "EOD" "C1" c6env).1 ∧
    strContainsSub (failureText "boom") "boom" = true ∧
    strContainsSub (failureText "boom") "Summarized" = false ∧
    strContainsSub (failureText "boom") "summarized" = false ∧
    strContainsSub (failureText "boom") "stage" = false := by
  decide

/-- C6 (amended): a summary run whose summarizer call raises transitions to
Failed with stage Summarized, sends exactly one user-visible failure notice
to the originating channel — the notice's fixed wording cites the error text
but does not name the failing stage — and invokes the summarizer exactly
once (no automatic retry). -/
theorem c6_summarizer_failure (summaryType channel e : String) (env : SummaryEnv)
    (hai : env.aiResult = .error e)
    (hne : getMessagesByDateRange env.db env.startT env.endT none ≠ []) :
    (generateAndSendSummary summaryType channel env).2
        = RunResult.failed Stage.summarized e ∧
    (∃ pre, (generateAndSendSummary summaryType channel env).1
          = pre ++ [Act.send channel (failureText e)] ∧
        Act.send channel (failureText e) ∉ pre) ∧
    strContainsSub (failureText e) e = true ∧
    (generateAndSendSummary summaryType channel env).1.countP isSummarizeCall = 1 := by
  have hlen : ¬((getMessagesByDateRange env.db env.startT env.endT none).length = 0) := by
    simpa [List.length_eq_zero] using hne
  have hp := progress_ne_failure summaryType e
  have hq := processing_ne_failure
    (getMessagesByDateRange env.db env.startT env.endT none).length env.startT e
  refine ⟨?_, ?_, ?_, ?_⟩
  · simp [generateAndSendSummary, hai, hlen]
  · refine ⟨[Act.send channel (progressText summaryType), Act.syncCall,
      Act.storeQuery env.startT env.endT,
      Act.send channel (processingText
        (getMessagesByDateRange env.db env.startT env.endT none).length env.startT),
      Act.summarizeCall summaryType
        (getMessagesByDateRange env.db env.startT env.endT none).length], ?_, ?_⟩
    · simp [generateAndSendSummary, hai, hlen]
    · simp only [List.mem_cons, List.not_mem_nil, or_false, not_or]
      refine ⟨?_, by simp, by simp, ?_, by simp⟩
      · intro hcontra
        exact hp (Act.send.inj hcontra).2.symm
      · intro hcontra
        exact hq (Act.send.inj hcontra).2.symm
  · simp only [failureText, strContainsSub, strData_append]
    exact containsCL_append_right _ _ _ (containsCL_self _)
  · simp [generateAndSendSummary, hai, hlen, isSummarizeCall, List.countP_cons,
      List.countP_append]

/-- Witness instantiating C6's amended theorem at a concrete failing run. -/
theorem c6_witness :
    (generateAndSendSummary "EOD" "C1" c6env).2
        = RunResult.failed Stage.summarized "boom" ∧
    (generateAndSendSummary "EOD" "C1" c6env).1.countP isSummarizeCall = 1 := by
  have h := c6_summarizer_failure "EOD" "C1" "boom" c6env rfl (by decide)
  exact ⟨h.1, h.2.2.2⟩

/-- C7: the delivered chat reply truncates the summary body to the
1500-character budget, carries the appended `...` marker exactly when the
summary text exceeds 1500 characters (shorter summaries are embedded whole
with no appended marker), and appends the processed message count. -/
theorem c7_delivered_truncation (summaryType channel s : String) (env : SummaryEnv)
    (hai : env.aiResult = .ok s)
    (hne : getMessagesByDateRange env.db env.startT env.endT none ≠ []) :
    (Act.send channel (deliveredReply summaryType s
        (getMessagesByDateRange env.db env.startT env.endT none).length)
      ∈ (generateAndSendSummary summaryType channel env).1) ∧
    strLen (takeChars s 1500) ≤ 1500 ∧
    (∀ n : Nat, strLen s ≤ 1500 →
        deliveredReply summaryType s n
          = summaryHeader summaryType ++ s ++ summaryFooter n) ∧
    (∀ n : Nat, 1500 < strLen s →
        deliveredReply summaryType s n
          = summaryHeader summaryType ++ takeChars s 1500 ++ "..." ++ summaryFooter n) ∧
    (∀ n : Nat, strContainsSub (summaryFooter n) (toString n) = true) := by
  have hlen : ¬((getMessagesByDateRange env.db env.startT env.endT none).length = 0) := by
    simpa [List.length_eq_zero] using hne
  refine ⟨?_, strLen_takeChars s 1500, ?_, ?_, ?_⟩
  · simp [generateAndSendSummary, hai, hlen]
  · intro n hle
    have hnot : ¬(1500 < strLen s) := by omega
    simp only [deliveredReply, if_neg hnot, takeChars_of_le s 1500 hle]
    rw [str_append_empty (summaryHeader summaryType ++ s)]
  · intro n hgt
    simp only [deliveredReply, if_pos hgt]
  · intro n
    exact strContains_mid "\n\n📈 *Processed " (toString n) " messages*"

/-- Witness instantiating C7 at a concrete delivered run. -/
theorem c7_witness :
    Act.send "C1" (deliveredReply "EOD" "hi" 1)
      ∈ (generateAndSendSummary "EOD" "C1" c7env).1 ∧
    deliveredReply "EOD" "hi" 1 = summaryHeader "EOD" ++ "hi" ++ summaryFooter 1 := by
  have h := c7_delivered_truncation "EOD" "C1" "hi" c7env rfl (by decide)
  have hlen : (getMessagesByDateRange c7env.db c7env.startT c7env.endT none).length = 1 := by
    decide
  refine ⟨?_, h.2.2.1 1 (by decide)⟩
  have h1 := h.1
  rw [hlen] at h1
  exact h1

/-- C5 counterexample: re-ingesting an existing identifier makes the second
call return `True` — the same success flag as the first, fresh insert —
whereas the spec's `upsert_message(msg) -> inserted:bool` contract would have
it report "already existed" with an inserted flag of `False`.  The claim that
the second call "reports already existed" per that contract is false at this
concrete input. -/
theorem c5_counterexample :
    (storeSlackMessage (storeSlackMessage [] c5msg).1 c5msg).2 = true ∧
    specUpsertInserted (storeSlackMessage [] c5msg).1 c5msg = false ∧
    (storeSlackMessage (storeSlackMessage [] c5msg).1 c5msg).2
      ≠ specUpsertInserted (storeSlackMessage [] c5msg).1 c5msg := by
  decide

/-- C5 (amended): calling the message upsert twice with an identical
identifier inserts the message exactly once; the second call does not raise
and is a no-op on the store, but it returns the same `True` success flag as
the first call — the "already existed" case is not distinguishable through
the returned boolean. -/
theorem c5_upsert_idempotent (db : List Msg) (m : Msg)
    (h : hasMsgId db m.id = false) :
    (storeSlackMessage db m).1 = db ++ [m] ∧
    (storeSlackMessage db m).2 = true ∧
    (storeSlackMessage (storeSlackMessage db m).1 m).1 = db ++ [m] ∧
    (storeSlackMessage (storeSlackMessage db m).1 m).2 = true ∧
    ((storeSlackMessage (storeSlackMessage db m).1 m).1.countP
        (fun x => x.id == m.id)) = 1 := by
  have h1 : storeSlackMessage db m = (db ++ [m], true) := by
    simp [storeSlackMessage, h]
  have h2 : hasMsgId (db ++ [m]) m.id = true := by
    simp [hasMsgId, List.any_append]
  have h3 : storeSlackMessage (db ++ [m]) m = (db ++ [m], true) := by
    simp [storeSlackMessage, h2]
  have hzero : db.countP (fun x => x.id == m.id) = 0 := by
    rw [List.countP_eq_zero]
    intro a ha hcontra
    simp only [hasMsgId] at h
    have hany : db.any (fun x => x.id == m.id) = true :=
      List.any_eq_true.mpr ⟨a, ha, hcontra⟩
    rw [hany] at h
    simp at h
  refine ⟨by rw [h1], by rw [h1], by rw [h1, h3], by rw [h1, h3], ?_⟩
  rw [h1, h3]
  simp [List.countP_append, List.countP_cons, hzero]

/-- Witness instantiating C5's amended theorem at a concrete double upsert. -/
theorem c5_witness :
    (storeSlackMessage [] c5msg).1 = [c5msg] ∧
    ((storeSlackMessage (storeSlackMessage [] c5msg).1 c5msg).1.countP
        (fun x => x.id == c5msg.id)) = 1 := by
  have h := c5_upsert_idempotent [] c5msg (by decide)
  exact ⟨by simpa using h.1, h.2.2.2.2⟩

/-- C1 counterexample: on a store of 41 messages with timestamps 0..40 the
fetched list is ascending, the prompt keeps the first (oldest) 40 and the
single message relegated to the "... and N more" marker is the newest one —
so the claim that the newest messages take precedence over the truncation
marker is false at this concrete run (while the marker count itself is
right). -/
theorem c1_counterexample :
    mkMsg 0 ∈ promptIncludedMessages (getMessagesByDateRange c1db 0 100 none) ∧
    mkMsg 40 ∈ (getMessagesByDateRange c1db 0 100 none).drop 40 ∧
    (mkMsg 0).timestamp < (mkMsg 40).timestamp ∧
    promptTruncationCount (getMessagesByDateRange c1db 0 100 none) = some 1 ∧
    ¬(∀ x ∈ (getMessagesByDateRange c1db 0 100 none).drop 40,
        ∀ y ∈ promptIncludedMessages (getMessagesByDateRange c1db 0 100 none),
          x.timestamp ≤ y.timestamp) := by
  decide

/-- C1 (amended): when the fetched message list exceeds the cap, the prompt
includes exactly the first 40 messages of the ascending-sorted fetch — the
oldest ones, every excluded message being at least as new as every included
one — and the truncation marker reports exactly the number left out. -/
theorem c1_prompt_oldest (db : List Msg) (s e : Nat)
    (h : 40 < (getMessagesByDateRange db s e none).length) :
    (promptIncludedMessages (getMessagesByDateRange db s e none)).length = 40 ∧
    promptTruncationCount (getMessagesByDateRange db s e none)
      = some ((getMessagesByDateRange db s e none).length - 40) ∧
    ∀ y ∈ promptIncludedMessages (getMessagesByDateRange db s e none),
      ∀ x ∈ (getMessagesByDateRange db s e none).drop 40,
        y.timestamp ≤ x.timestamp := by
  refine ⟨?_, ?_, ?_⟩
  · simp only [promptIncludedMessages, List.length_take]
    omega
  · simp [promptTruncationCount, h]
  · have hp := getMessages_pairwise db s e none
    have h2 : ((getMessagesByDateRange db s e none).take 40 ++
        (getMessagesByDateRange db s e none).drop 40).Pairwise
          (fun a b => a.timestamp ≤ b.timestamp) := by
      rw [List.take_append_drop]
      exact hp
    exact fun y hy x hx => (List.pairwise_append.mp h2).2.2 y hy x hx

/-- Witness instantiating C1's amended theorem at the 41-message store. -/
theorem c1_witness :
    (promptIncludedMessages (getMessagesByDateRange c1db 0 100 none)).length = 40 ∧
    promptTruncationCount (getMessagesByDateRange c1db 0 100 none) = some 1 := by
  have h := c1_prompt_oldest c1db 0 100 (by decide)
  have hlen : (getMessagesByDateRange c1db 0 100 none).length = 41 := by decide
  refine ⟨h.1, ?_⟩
  rw [h.2.1, hlen]

set_option maxRecDepth 40000 in
/-- C2 counterexample: the dedup sets are plain Python `set`s, whose
iteration order is not insertion order, so the evicted batch
`list(s)[:100]` need not be the oldest-inserted 100 entries.  Concretely,
for the insertion history `c2hist` of 1001 distinct keys the batch `c2batch`
(which skips the oldest key) is a legal outcome of `list(s)[:100]` yet
differs from the oldest-inserted 100 — refuting the claimed FIFO
insertion-order eviction. -/
theorem c2_fifo_counterexample :
    ¬(∀ (hist l : List String), hist.Nodup →
        PyListTake hist.toFinset 100 l → l = hist.take 100) := by
  intro hclaim
  have hnd : c2hist.Nodup := (List.nodup_range 1001).map mkKey_inj
  have hsub : List.Sublist c2batch c2hist :=
    (List.take_sublist 100 (c2hist.drop 1)).trans (List.drop_sublist 1 c2hist)
  have hpt : PyListTake c2hist.toFinset 100 c2batch := by
    refine ⟨hnd.sublist hsub, ?_, ?_⟩
    · intro x hx
      exact List.mem_toFinset.mpr (hsub.subset hx)
    · have hcard : c2hist.toFinset.card = 1001 := by
        rw [List.toFinset_card_of_nodup hnd]
        simp [c2hist]
      have hlen : c2batch.length = 100 := by
        simp [c2batch, c2hist]
      rw [hlen, hcard]
      decide
  have heq := hclaim c2hist c2batch hnd hpt
  have hne : c2batch ≠ c2hist.take 100 := by decide
  exact hne heq

/-- C2 (amended): both dedup sets are bounded — the event set never exceeds
1000 entries by more than the single just-added record before eviction
restores it below the bound, the command set likewise for 500 — and when the
bound is exceeded the eviction removes exactly 100 (resp. 50) entries; but
the entries removed are taken in the set's unspecified iteration order, not
FIFO insertion order. -/
theorem c2_dedup_bounds (s after : Finset String) (key : String) :
    (DedupInsert 1000 100 s key after → s.card ≤ 1000 →
      (insert key s).card ≤ s.card + 1 ∧ after.card ≤ 1000 ∧
        (1000 < (insert key s).card → after.card + 100 = (insert key s).card)) ∧
    (DedupInsert 500 50 s key after → s.card ≤ 500 →
      (insert key s).card ≤ s.card + 1 ∧ after.card ≤ 500 ∧
        (500 < (insert key s).card → after.card + 50 = (insert key s).card)) :=
  ⟨fun hd hle => dedupInsert_card 1000 100 s after key (by omega) (by omega) hd hle,
   fun hd hle => dedupInsert_card 500 50 s after key (by omega) (by omega) hd hle⟩

/-- Witness instantiating C2's amended theorem at a concrete small step. -/
theorem c2_witness :
    (insert "k" (∅ : Finset String)).card ≤ (∅ : Finset String).card + 1 ∧
    (insert "k" (∅ : Finset String)).card ≤ 1000 := by
  have hd : DedupInsert 1000 100 (∅ : Finset String) "k" (insert "k" ∅) := by
    simp [DedupInsert]
  have h := (c2_dedup_bounds ∅ (insert "k" ∅) "k").1 hd (by simp)
  exact ⟨h.1, h.2.1⟩

/-- C10: in both handlers the dedup key is recorded before any side effect
appears in the trace (a fresh key's trace starts with the recording action),
a key already in the set is silently dropped with no side effects and no
state change, and consequently a redelivery whose key is still tracked after
the first handling produces no side effects a second time — independently of
whether the first attempt's side effects succeeded, since the handlers never
remove a key on failure. -/
theorem c10_dedup_before_effects :
    (∀ (botId : Option String) (st : Finset String) (ev : SlackEvent) after tr,
        HandleSlackEvent botId st ev after tr →
          (eventKey ev ∈ st → after = st ∧ tr = []) ∧
          (eventKey ev ∉ st → ∃ rest, tr = Act.recordEvent (eventKey ev) :: rest) ∧
          (eventKey ev ∈ after → ∀ after2 tr2,
              HandleSlackEvent botId after ev after2 tr2 → after2 = after ∧ tr2 = [])) ∧
    (∀ (st : Finset String) (ev : SlackEvent) (sm sc : Nat) after tr,
        HandleBotMention st ev sm sc after tr →
          (commandKey ev ∈ st → after = st ∧ tr = []) ∧
          (commandKey ev ∉ st → ∃ rest, tr = Act.recordCommand (commandKey ev) :: rest) ∧
          (commandKey ev ∈ after → ∀ after2 tr2,
              HandleBotMention after ev sm sc after2 tr2 → after2 = after ∧ tr2 = [])) := by
  constructor
  · intro botId st ev after tr h
    refine ⟨?_, ?_, ?_⟩
    · intro hk
      unfold HandleSlackEvent at h
      rw [if_pos hk] at h
      exact h
    · intro hk
      unfold HandleSlackEvent at h
      rw [if_neg hk] at h
      exact ⟨_, h.2⟩
    · intro hka after2 tr2 h2
      unfold HandleSlackEvent at h2
      rw [if_pos hka] at h2
      exact h2
  · intro st ev sm sc after tr h
    refine ⟨?_, ?_, ?_⟩
    · intro hk
      unfold HandleBotMention at h
      rw [if_pos hk] at h
      exact h
    · intro hk
      unfold HandleBotMention at h
      rw [if_neg hk] at h
      exact ⟨_, h.2⟩
    · intro hka after2 tr2 h2
      unfold HandleBotMention at h2
      rw [if_pos hka] at h2
      exact h2

/-- Witness instantiating C10 at concrete fresh deliveries of an event and a
bot-mention command. -/
theorem c10_witness :
    (∃ rest, [Act.recordEvent (eventKey c10ev)]
        = Act.recordEvent (eventKey c10ev) :: rest) ∧
    (∃ rest, (Act.recordCommand (commandKey c10mention) ::
          mentionEffects c10mention.channel (classify c10mention.text) 0 0)
        = Act.recordCommand (commandKey c10mention) :: rest) := by
  have hrel1 : HandleSlackEvent none ∅ c10ev (insert (eventKey c10ev) ∅)
      [Act.recordEvent (eventKey c10ev)] := by
    unfold HandleSlackEvent
    rw [if_neg (Finset.not_mem_empty _)]
    refine ⟨?_, ?_⟩
    · unfold DedupInsert
      rw [if_neg (by simp)]
    · simp [c10ev]
  have hrel2 : HandleBotMention ∅ c10mention 0 0 (insert (commandKey c10mention) ∅)
      (Act.recordCommand (commandKey c10mention) ::
        mentionEffects c10mention.channel (classify c10mention.text) 0 0) := by
    unfold HandleBotMention
    rw [if_neg (Finset.not_mem_empty _)]
    refine ⟨?_, rfl⟩
    unfold DedupInsert
    rw [if_neg (by simp)]
  exact ⟨(c10_dedup_before_effects.1 none ∅ c10ev _ _ hrel1).2.1
      (Finset.not_mem_empty _),
    (c10_dedup_before_effects.2 ∅ c10mention 0 0 _ _ hrel2).2.1
      (Finset.not_mem_empty _)⟩
